import Mathlib

/-
Verification of the foodgram backend's core domain logic: a shallow
embedding of the recipe/ingredient validators, the shopping-list
aggregator, the social-graph guard, the base64 image codec and the
declared storage constraints, with theorems checking the documented
properties against these definitions.

Python strings are modelled as `List Char` (a Python `str` is a sequence
of code points), database tables as Lean lists of row structures, and
each ORM call as a pure function on that state.
-/

set_option maxHeartbeats 1000000

deriving instance DecidableEq for Except

namespace Foodgram

/-- A catalog ingredient row (`recipes.models.Ingredient`): primary key,
display name and free-text measurement unit. -/
structure Ingredient where
  id : Nat
  name : List Char
  measurement_unit : List Char
deriving DecidableEq, Repr

/-- One submitted ingredient line of a recipe payload, as parsed by
`RecipeIngredientSerializer`: a catalog reference plus an amount. The
amount is an `Int` because it is range-checked only by validators. -/
structure IngredientLine where
  ingredient_id : Nat
  amount : Int
deriving DecidableEq, Repr

/-- Errors surfaced by the serializers and views. Constructor names follow
the spec's error taxonomy; each corresponds to one `raise` site or error
`Response` in the source. -/
inductive ApiError where
  | emptyIngredientList
  | emptyIngredientListUpdate
  | duplicateIngredient
  | unknownIngredient (id : Nat)
  | unknownIngredients
  | amountOutOfRange (id : Nat) (amount : Int)
  | cookingTimeOutOfRange (t : Int)
  | missingIngredientsField
  | selfFollow
  | duplicateFollow
  | notFollowing
  | alreadyFavorited
  | notFavorited
  | alreadyInCart
  | notInCart
  | emptyCart
  | uniqueViolation
deriving DecidableEq, Repr

/-- The serializer method `RecipeSerializer.validate_ingredients`
(api/serializers.py 149-169), used on the recipe-creation path: reject an
empty list, then a repeated ingredient id (`len(ids) != len(set(ids))`),
then the first id missing from the catalog (one batch lookup of all ids);
otherwise return the submitted list unchanged. -/
def RecipeSerializer.validate_ingredients (catalog : List Ingredient)
    (value : List IngredientLine) : Except ApiError (List IngredientLine) :=
  if value.isEmpty then
    .error .emptyIngredientList
  else
    let ingredient_ids := value.map (fun l => l.ingredient_id)
    if ingredient_ids.length ≠ ingredient_ids.dedup.length then
      .error .duplicateIngredient
    else
      let existing_ids :=
        (catalog.filter (fun i => ingredient_ids.contains i.id)).map (fun i => i.id)
      match ingredient_ids.find? (fun id => !(existing_ids.contains id)) with
      | some id => .error (.unknownIngredient id)
      | none => .ok value

/-- The serializer method `RecipeUpdateSerializer.validate_ingredients`
(api/serializers.py 359-383), used on the recipe-update path: reject an
empty list, then compare the count of catalog rows whose id occurs in the
submission against the submission's length, then check for repeats;
otherwise return the submitted list unchanged. -/
def RecipeUpdateSerializer.validate_ingredients (catalog : List Ingredient)
    (value : List IngredientLine) : Except ApiError (List IngredientLine) :=
  if value.isEmpty then
    .error .emptyIngredientListUpdate
  else
    let ingredient_ids := value.map (fun l => l.ingredient_id)
    let existing_count :=
      (catalog.filter (fun i => ingredient_ids.contains i.id)).length
    if existing_count ≠ ingredient_ids.length then
      .error .unknownIngredients
    else
      if ingredient_ids.length ≠ ingredient_ids.dedup.length then
        .error .duplicateIngredient
      else
        .ok value

example :
    RecipeSerializer.validate_ingredients [⟨1, [], []⟩] [⟨1, 5⟩, ⟨1, 7⟩] =
      .error .duplicateIngredient := by decide

example :
    RecipeUpdateSerializer.validate_ingredients [⟨1, [], []⟩] [⟨1, 5⟩, ⟨1, 7⟩] =
      .error .unknownIngredients := by decide

example :
    RecipeSerializer.validate_ingredients [⟨1, [], []⟩] [⟨1, 5⟩, ⟨2, 7⟩] =
      .error (.unknownIngredient 2) := by decide

example :
    RecipeSerializer.validate_ingredients [⟨1, [], []⟩, ⟨2, [], []⟩]
      [⟨1, 5⟩, ⟨2, 7⟩] = .ok [⟨1, 5⟩, ⟨2, 7⟩] := by decide

lemma dedup_length_lt_of_not_nodup {l : List Nat} (h : ¬ l.Nodup) :
    l.dedup.length < l.length := by
  rcases Nat.lt_or_ge l.dedup.length l.length with hlt | hge
  · exact hlt
  · exfalso
    have hsub := l.dedup_sublist
    have heq : l.dedup = l := hsub.eq_of_length (Nat.le_antisymm hsub.length_le hge)
    exact h (heq ▸ l.nodup_dedup)

lemma mem_of_contains {l : List Nat} {a : Nat} (h : l.contains a = true) :
    a ∈ l := by
  simpa using h

lemma contains_of_mem {l : List Nat} {a : Nat} (h : a ∈ l) :
    l.contains a = true := by
  simpa using h

/-- The batch existence query of both validators
(`Ingredient.objects.filter(id__in=ingredient_ids)`): when the catalog's
primary keys are distinct and the submitted ids contain a repeat, the count
of matching catalog rows is strictly below the submission length, so the
update-path count comparison always fails first. -/
lemma filter_count_lt_of_dup {catalog : List Ingredient} {ids : List Nat}
    (hcat : (catalog.map (fun i => i.id)).Nodup) (h : ¬ ids.Nodup) :
    (catalog.filter (fun i => ids.contains i.id)).length < ids.length := by
  have h1 : ((catalog.filter (fun i => ids.contains i.id)).map (fun i => i.id)).Nodup :=
    List.Nodup.sublist (List.Sublist.map _ (List.filter_sublist catalog)) hcat
  have h2 : ((catalog.filter (fun i => ids.contains i.id)).map (fun i => i.id)).toFinset
      ⊆ ids.toFinset := by
    intro a ha
    rw [List.mem_toFinset] at ha
    rw [List.mem_toFinset]
    simp only [List.mem_map, List.mem_filter] at ha
    obtain ⟨i, ⟨_, hc⟩, rfl⟩ := ha
    exact mem_of_contains hc
  calc (catalog.filter (fun i => ids.contains i.id)).length
      = ((catalog.filter (fun i => ids.contains i.id)).map (fun i => i.id)).length := by
        rw [List.length_map]
    _ = ((catalog.filter (fun i => ids.contains i.id)).map (fun i => i.id)).toFinset.card :=
        (List.toFinset_card_of_nodup h1).symm
    _ ≤ ids.toFinset.card := Finset.card_le_card h2
    _ = ids.dedup.length := List.card_toFinset ids
    _ < ids.length := dedup_length_lt_of_not_nodup h

/-- Membership in the id list of the batch-filtered catalog rows coincides,
for a submitted id, with that id existing in the catalog. -/
lemma mem_existing_ids {catalog : List Ingredient} {ids : List Nat} {id : Nat}
    (hid : id ∈ ids) :
    (id ∈ (catalog.filter (fun i => ids.contains i.id)).map (fun i => i.id)) ↔
      ∃ i ∈ catalog, i.id = id := by
  simp only [List.mem_map, List.mem_filter]
  constructor
  · rintro ⟨i, ⟨hi, _⟩, rfl⟩
    exact ⟨i, hi, rfl⟩
  · rintro ⟨i, hi, rfl⟩
    exact ⟨i, ⟨hi, contains_of_mem hid⟩, rfl⟩

/-- C3 counterexample: on the update path, the submission
`[(id 1, 200), (id 1, 50)]` against a catalog that does contain ingredient 1
is rejected with the batch unknown-ingredients error, not with the
duplicate-ingredient error the claim requires: the existence check compares
the count of distinct matching catalog rows (1) with the submission length
(2) and fires before the duplicate check is ever reached. -/
theorem C3_counterexample :
    RecipeUpdateSerializer.validate_ingredients
        [⟨1, "сахар".toList, "г".toList⟩] [⟨1, 200⟩, ⟨1, 50⟩] =
      .error .unknownIngredients ∧
    RecipeUpdateSerializer.validate_ingredients
        [⟨1, "сахар".toList, "г".toList⟩] [⟨1, 200⟩, ⟨1, 50⟩] ≠
      .error .duplicateIngredient := by
  decide

/-- C3 amended: for every catalog with distinct primary keys and every
submitted ingredient-line list in which some ingredient id occurs more than
once, the creation-path validator fails with the duplicate-ingredient error,
while the update-path validator rejects the list too but with the batch
unknown-ingredients error (its own duplicate check is unreachable). -/
theorem C3_duplicate_ingredient_amended (catalog : List Ingredient)
    (value : List IngredientLine)
    (hcat : (catalog.map (fun i => i.id)).Nodup)
    (hdup : ∃ id, 2 ≤ (value.map (fun l => l.ingredient_id)).count id) :
    RecipeSerializer.validate_ingredients catalog value =
      .error .duplicateIngredient ∧
    RecipeUpdateSerializer.validate_ingredients catalog value =
      .error .unknownIngredients := by
  obtain ⟨id, hid⟩ := hdup
  have hnodup : ¬ (value.map (fun l => l.ingredient_id)).Nodup := by
    intro hn
    have := List.nodup_iff_count_le_one.mp hn id
    omega
  have hne : value.isEmpty = false := by
    cases value with
    | nil => simp at hid
    | cons a l => rfl
  have hlt := dedup_length_lt_of_not_nodup hnodup
  constructor
  · unfold RecipeSerializer.validate_ingredients
    rw [hne]
    simp only [Bool.false_eq_true, if_false]
    rw [if_pos (by omega)]
  · unfold RecipeUpdateSerializer.validate_ingredients
    rw [hne]
    simp only [Bool.false_eq_true, if_false]
    rw [if_pos (Nat.ne_of_lt (filter_count_lt_of_dup hcat hnodup))]

/-- Witness for the C3 amended theorem at the concrete duplicate submission
`[(id 1, 200), (id 1, 50)]`. -/
theorem C3_amended_witness :
    RecipeSerializer.validate_ingredients [⟨1, [], []⟩] [⟨1, 200⟩, ⟨1, 50⟩] =
      .error .duplicateIngredient ∧
    RecipeUpdateSerializer.validate_ingredients [⟨1, [], []⟩] [⟨1, 200⟩, ⟨1, 50⟩] =
      .error .unknownIngredients :=
  C3_duplicate_ingredient_amended _ _ (by decide) ⟨1, by decide⟩

/-- C4 counterexample: the list `[(id 1, 5), (id 1, 6)]` checked against an
empty catalog contains an ingredient id absent from the catalog, yet the
creation-path validator reports the duplicate-ingredient error rather than
`UnknownIngredient(1)`: the duplicate check runs before the batch existence
check. -/
theorem C4_counterexample :
    RecipeSerializer.validate_ingredients [] [⟨1, 5⟩, ⟨1, 6⟩] =
      .error .duplicateIngredient ∧
    RecipeSerializer.validate_ingredients [] [⟨1, 5⟩, ⟨1, 6⟩] ≠
      .error (.unknownIngredient 1) := by
  decide

/-- C4 amended: the creation-path validator fails with the empty-list error
on every empty submission; on every duplicate-free submission containing an
id absent from the catalog it fails with the unknown-ingredient error for
such an absent id (found by one batch lookup over all ids); and on every
duplicate-free submission whose ids all exist it returns the submitted list
unchanged. (Amendment: the duplicate check precedes the existence check, so
the unknown-ingredient outcome is guaranteed only for duplicate-free
lists.) -/
theorem C4_create_validator_amended (catalog : List Ingredient)
    (value : List IngredientLine) :
    (RecipeSerializer.validate_ingredients catalog [] =
      .error .emptyIngredientList) ∧
    ((value.map (fun l => l.ingredient_id)).Nodup →
      (∃ l ∈ value, ∀ i ∈ catalog, i.id ≠ l.ingredient_id) →
      ∃ id, (∃ l ∈ value, l.ingredient_id = id) ∧ (∀ i ∈ catalog, i.id ≠ id) ∧
        RecipeSerializer.validate_ingredients catalog value =
          .error (.unknownIngredient id)) ∧
    ((value.map (fun l => l.ingredient_id)).Nodup → value ≠ [] →
      (∀ l ∈ value, ∃ i ∈ catalog, i.id = l.ingredient_id) →
      RecipeSerializer.validate_ingredients catalog value = .ok value) := by
  refine ⟨rfl, ?_, ?_⟩
  · intro hnodup ⟨l0, hl0, habs⟩
    have hne : value.isEmpty = false := by
      cases value with
      | nil => simp at hl0
      | cons a t => rfl
    have hdedup : (value.map (fun l => l.ingredient_id)).dedup.length =
        (value.map (fun l => l.ingredient_id)).length :=
      congrArg List.length (List.dedup_eq_self.mpr hnodup)
    have hsome : ((value.map (fun l => l.ingredient_id)).find? (fun id =>
        !(((catalog.filter (fun i =>
            (value.map (fun l => l.ingredient_id)).contains i.id)).map
          (fun i => i.id)).contains id))).isSome := by
      rw [List.find?_isSome]
      refine ⟨l0.ingredient_id, List.mem_map_of_mem _ hl0, ?_⟩
      have hnotmem : l0.ingredient_id ∉ (catalog.filter (fun i =>
          (value.map (fun l => l.ingredient_id)).contains i.id)).map (fun i => i.id) := by
        rw [mem_existing_ids (List.mem_map_of_mem _ hl0)]
        rintro ⟨i, hi, hieq⟩
        exact habs i hi hieq
      show (!(((catalog.filter (fun i =>
          (value.map (fun l => l.ingredient_id)).contains i.id)).map
        (fun i => i.id)).contains l0.ingredient_id)) = true
      cases hcc : ((catalog.filter (fun i =>
          (value.map (fun l => l.ingredient_id)).contains i.id)).map
        (fun i => i.id)).contains l0.ingredient_id with
      | false => rfl
      | true => exact absurd (mem_of_contains hcc) hnotmem
    obtain ⟨id0, hfind⟩ := Option.isSome_iff_exists.mp hsome
    have hid0mem : id0 ∈ value.map (fun l => l.ingredient_id) :=
      List.mem_of_find?_eq_some hfind
    have hid0p := List.find?_some hfind
    have hid0abs : ∀ i ∈ catalog, i.id ≠ id0 := by
      intro i hi hieq
      have hmem : id0 ∈ (catalog.filter (fun i =>
          (value.map (fun l => l.ingredient_id)).contains i.id)).map (fun i => i.id) :=
        (mem_existing_ids hid0mem).mpr ⟨i, hi, hieq⟩
      rw [contains_of_mem hmem] at hid0p
      simp at hid0p
    refine ⟨id0, ?_, hid0abs, ?_⟩
    · obtain ⟨l1, hl1, hleq⟩ := List.mem_map.mp hid0mem
      exact ⟨l1, hl1, hleq⟩
    · unfold RecipeSerializer.validate_ingredients
      rw [hne]
      simp only [Bool.false_eq_true, if_false]
      rw [if_neg (by omega)]
      rw [hfind]
  · intro hnodup hne hall
    have hne' : value.isEmpty = false := by
      cases value with
      | nil => exact absurd rfl hne
      | cons a t => rfl
    have hdedup : (value.map (fun l => l.ingredient_id)).dedup.length =
        (value.map (fun l => l.ingredient_id)).length :=
      congrArg List.length (List.dedup_eq_self.mpr hnodup)
    have hfind : ((value.map (fun l => l.ingredient_id)).find? (fun id =>
        !(((catalog.filter (fun i =>
            (value.map (fun l => l.ingredient_id)).contains i.id)).map
          (fun i => i.id)).contains id))) = none := by
      rw [List.find?_eq_none]
      intro id hid
      obtain ⟨l1, hl1, hleq⟩ := List.mem_map.mp hid
      obtain ⟨i, hi, hieq⟩ := hall l1 hl1
      have hc := contains_of_mem ((mem_existing_ids hid).mpr ⟨i, hi, hieq ▸ hleq⟩)
      intro hp
      rw [hc] at hp
      exact Bool.false_ne_true hp
    unfold RecipeSerializer.validate_ingredients
    rw [hne']
    simp only [Bool.false_eq_true, if_false]
    rw [if_neg (by omega)]
    rw [hfind]

/-- Witness for the C4 amended theorem: empty submission, fully-known
submission, and a submission referencing the absent id 2. -/
theorem C4_amended_witness :
    RecipeSerializer.validate_ingredients [⟨1, [], []⟩] [] =
      .error .emptyIngredientList ∧
    RecipeSerializer.validate_ingredients [⟨1, [], []⟩] [⟨1, 9⟩] =
      .ok [⟨1, 9⟩] ∧
    RecipeSerializer.validate_ingredients [⟨1, [], []⟩] [⟨2, 9⟩] =
      .error (.unknownIngredient 2) := by
  refine ⟨(C4_create_validator_amended [⟨1, [], []⟩] []).1,
    (C4_create_validator_amended [⟨1, [], []⟩] [⟨1, 9⟩]).2.2 (by decide)
      (by decide) (by decide), ?_⟩
  obtain ⟨id, hmem, -, heq⟩ :=
    (C4_create_validator_amended [⟨1, [], []⟩] [⟨2, 9⟩]).2.1 (by decide)
      ⟨⟨2, 9⟩, by decide, by decide⟩
  have hid : id = 2 := by
    simp only [List.mem_singleton] at hmem
    obtain ⟨l, hl, hleq⟩ := hmem
    rw [hl] at hleq
    exact hleq.symm
  rw [hid] at heq
  exact heq

/-- A follow edge row (`users.models.Follow`): `user` follows `author`. -/
structure FollowRow where
  user : Nat
  author : Nat
deriving DecidableEq, Repr

/-- A (user, recipe) membership row, the shape shared by
`recipes.models.Favorite` and `recipes.models.ShoppingCart`. -/
structure UserRecipePair where
  user : Nat
  recipe : Nat
deriving DecidableEq, Repr

/-- POST branch of `UserViewSet.subscribe` (api/views.py 93-109): reject a
self-follow, then an already-existing edge, then create exactly the one
requested edge. -/
def subscribe_post (follows : List FollowRow) (user author : Nat) :
    Except ApiError (List FollowRow) :=
  if user == author then .error .selfFollow
  else if follows.any (fun f => f.user == user && f.author == author) then
    .error .duplicateFollow
  else .ok (follows ++ [⟨user, author⟩])

/-- DELETE branch of `UserViewSet.subscribe` (api/views.py 110-118): reject
when the edge does not exist, otherwise `get` the single matching row and
delete it. -/
def subscribe_delete (follows : List FollowRow) (user author : Nat) :
    Except ApiError (List FollowRow) :=
  if !(follows.any (fun f => f.user == user && f.author == author)) then
    .error .notFollowing
  else .ok (follows.erase ⟨user, author⟩)

lemma follow_any_iff {follows : List FollowRow} {user author : Nat} :
    (follows.any (fun f => f.user == user && f.author == author) = true) ↔
      (⟨user, author⟩ : FollowRow) ∈ follows := by
  rw [List.any_eq_true]
  constructor
  · rintro ⟨f, hf, hp⟩
    rw [Bool.and_eq_true, beq_iff_eq, beq_iff_eq] at hp
    obtain ⟨h1, h2⟩ := hp
    have hfe : f = ⟨user, author⟩ := by
      cases f
      simp_all
    exact hfe ▸ hf
  · intro hm
    exact ⟨⟨user, author⟩, hm, by simp⟩

/-- C6: creating a follow edge fails with SelfFollow whenever follower and
target coincide, regardless of the existing edges; fails with
DuplicateFollow whenever the edge exists; otherwise appends exactly that one
edge. Unfollowing fails with NotFollowing when the edge is absent and
otherwise deletes exactly one occurrence of that edge, leaving every other
edge's multiplicity unchanged. -/
theorem C6_follow_edge_guard (follows : List FollowRow) (user author : Nat) :
    (user = author → subscribe_post follows user author = .error .selfFollow) ∧
    (user ≠ author → (⟨user, author⟩ : FollowRow) ∈ follows →
      subscribe_post follows user author = .error .duplicateFollow) ∧
    (user ≠ author → (⟨user, author⟩ : FollowRow) ∉ follows →
      subscribe_post follows user author = .ok (follows ++ [⟨user, author⟩])) ∧
    ((⟨user, author⟩ : FollowRow) ∉ follows →
      subscribe_delete follows user author = .error .notFollowing) ∧
    ((⟨user, author⟩ : FollowRow) ∈ follows →
      subscribe_delete follows user author = .ok (follows.erase ⟨user, author⟩) ∧
      ∀ e : FollowRow, (follows.erase ⟨user, author⟩).count e =
        follows.count e - (if (⟨user, author⟩ : FollowRow) = e then 1 else 0)) := by
  refine ⟨?_, ?_, ?_, ?_, ?_⟩
  · intro h
    unfold subscribe_post
    rw [if_pos (by simp [h])]
  · intro hne hmem
    unfold subscribe_post
    rw [if_neg (by simp [hne]), if_pos (follow_any_iff.mpr hmem)]
  · intro hne hmem
    unfold subscribe_post
    rw [if_neg (by simp [hne]),
      if_neg (fun hc => hmem (follow_any_iff.mp hc))]
  · intro hmem
    unfold subscribe_delete
    rw [if_pos (by
      rw [Bool.not_eq_true']
      rw [← Bool.not_eq_true]
      exact fun hc => hmem (follow_any_iff.mp hc))]
  · intro hmem
    refine ⟨?_, ?_⟩
    · unfold subscribe_delete
      rw [if_neg (by
        rw [Bool.not_eq_true', Bool.not_eq_false]
        exact follow_any_iff.mpr hmem)]
    · intro e
      simp only [List.count_erase, beq_iff_eq]

/-- Witness for C6 on a concrete two-user state: self-follow rejected,
duplicate rejected, fresh follow inserted, unfollow of an absent edge
rejected, and unfollow of a present edge removing it. -/
theorem C6_witness :
    subscribe_post [⟨1, 2⟩] 1 1 = .error .selfFollow ∧
    subscribe_post [⟨1, 2⟩] 1 2 = .error .duplicateFollow ∧
    subscribe_post [⟨1, 2⟩] 2 1 = .ok [⟨1, 2⟩, ⟨2, 1⟩] ∧
    subscribe_delete [⟨1, 2⟩] 2 1 = .error .notFollowing ∧
    subscribe_delete [⟨1, 2⟩] 1 2 = .ok [] :=
  ⟨(C6_follow_edge_guard [⟨1, 2⟩] 1 1).1 rfl,
   (C6_follow_edge_guard [⟨1, 2⟩] 1 2).2.1 (by decide) (by decide),
   (C6_follow_edge_guard [⟨1, 2⟩] 2 1).2.2.1 (by decide) (by decide),
   (C6_follow_edge_guard [⟨1, 2⟩] 2 1).2.2.2.1 (by decide),
   ((C6_follow_edge_guard [⟨1, 2⟩] 1 2).2.2.2.2 (by decide)).1⟩

/-- Storage-layer uniqueness declarations transcribed from each model's
`Meta`. `Follow` declares `UniqueConstraint(fields=['user','author'])`
(users/models.py 74-76), `ShoppingCart` declares
`unique_together = ('user','recipe')` (recipes/models.py 134),
`RecipeIngredient` declares `unique_together = ('recipe','ingredient')`
(recipes/models.py 110), while `Favorite.Meta` (recipes/models.py 154-156)
declares only verbose names and no uniqueness constraint. -/
def Follow.uniquePairDeclared : Bool := true

/-- ShoppingCart declares `unique_together = ('user', 'recipe')`. -/
def ShoppingCart.uniquePairDeclared : Bool := true

/-- RecipeIngredient declares `unique_together = ('recipe', 'ingredient')`. -/
def RecipeIngredient.uniquePairDeclared : Bool := true

/-- Favorite's `Meta` declares no `unique_together` and no `constraints`. -/
def Favorite.uniquePairDeclared : Bool := false

/-- A stored ingredient line (`recipes.models.RecipeIngredient`): the
(recipe, ingredient) join row with its amount. -/
structure RecipeIngredientRow where
  recipe : Nat
  ingredient : Nat
  amount : Int
deriving DecidableEq, Repr

/-- Storage-layer insert of a follow edge: the database rejects the row only
because of the declared uniqueness constraint over (user, author); this is
what remains when two concurrent requests both pass the application-level
existence check. -/
def storageInsertFollow (rows : List FollowRow) (row : FollowRow) :
    Except ApiError (List FollowRow) :=
  if Follow.uniquePairDeclared &&
      rows.any (fun r => r.user == row.user && r.author == row.author) then
    .error .uniqueViolation
  else .ok (rows ++ [row])

/-- Storage-layer insert of a shopping-cart row, guarded by the declared
`unique_together = ('user', 'recipe')`. -/
def storageInsertShoppingCart (rows : List UserRecipePair)
    (row : UserRecipePair) : Except ApiError (List UserRecipePair) :=
  if ShoppingCart.uniquePairDeclared &&
      rows.any (fun r => r.user == row.user && r.recipe == row.recipe) then
    .error .uniqueViolation
  else .ok (rows ++ [row])

/-- Storage-layer insert of a recipe-ingredient row, guarded by the declared
`unique_together = ('recipe', 'ingredient')`. -/
def storageInsertRecipeIngredient (rows : List RecipeIngredientRow)
    (row : RecipeIngredientRow) : Except ApiError (List RecipeIngredientRow) :=
  if RecipeIngredient.uniquePairDeclared &&
      rows.any (fun r => r.recipe == row.recipe && r.ingredient == row.ingredient) then
    .error .uniqueViolation
  else .ok (rows ++ [row])

/-- Storage-layer insert of a favorite row: `Favorite` declares no
uniqueness constraint, so the database never rejects a duplicate pair. -/
def storageInsertFavorite (rows : List UserRecipePair)
    (row : UserRecipePair) : Except ApiError (List UserRecipePair) :=
  if Favorite.uniquePairDeclared &&
      rows.any (fun r => r.user == row.user && r.recipe == row.recipe) then
    .error .uniqueViolation
  else .ok (rows ++ [row])

/-- C9 counterexample: a second storage-layer insertion of the favorite pair
(user 1, recipe 2) is accepted, leaving two identical Favorite rows — the
claimed storage-layer uniqueness constraint does not exist for Favorite, so
the check-then-insert race is not closed for it. -/
theorem C9_counterexample :
    storageInsertFavorite [⟨1, 2⟩] ⟨1, 2⟩ = .ok [⟨1, 2⟩, ⟨1, 2⟩] := by
  decide

/-- C9 amended: the storage layer rejects a second insertion of an existing
(user, author) follow edge, (user, recipe) cart row and (recipe, ingredient)
ingredient line, closing the check-then-insert race for those three pair
kinds; the Favorite model, however, declares no storage-layer uniqueness
constraint, and a duplicate favorite pair is always accepted by the storage
layer — only the application-level existence check prevents it. -/
theorem C9_storage_uniqueness_amended :
    (∀ (rows : List FollowRow) (row : FollowRow), row ∈ rows →
      storageInsertFollow rows row = .error .uniqueViolation) ∧
    (∀ (rows : List UserRecipePair) (row : UserRecipePair), row ∈ rows →
      storageInsertShoppingCart rows row = .error .uniqueViolation) ∧
    (∀ (rows : List RecipeIngredientRow) (row : RecipeIngredientRow),
      (∃ r ∈ rows, r.recipe = row.recipe ∧ r.ingredient = row.ingredient) →
      storageInsertRecipeIngredient rows row = .error .uniqueViolation) ∧
    (∀ (rows : List UserRecipePair) (row : UserRecipePair),
      storageInsertFavorite rows row = .ok (rows ++ [row])) := by
  refine ⟨?_, ?_, ?_, ?_⟩
  · intro rows row hmem
    unfold storageInsertFollow
    rw [if_pos]
    rw [Bool.and_eq_true]
    refine ⟨rfl, ?_⟩
    rw [List.any_eq_true]
    exact ⟨row, hmem, by simp⟩
  · intro rows row hmem
    unfold storageInsertShoppingCart
    rw [if_pos]
    rw [Bool.and_eq_true]
    refine ⟨rfl, ?_⟩
    rw [List.any_eq_true]
    exact ⟨row, hmem, by simp⟩
  · intro rows row hmem
    unfold storageInsertRecipeIngredient
    rw [if_pos]
    rw [Bool.and_eq_true]
    refine ⟨rfl, ?_⟩
    rw [List.any_eq_true]
    obtain ⟨r, hr, h1, h2⟩ := hmem
    exact ⟨r, hr, by simp [h1, h2]⟩
  · intro rows row
    unfold storageInsertFavorite
    rw [if_neg]
    rw [Bool.and_eq_true]
    rintro ⟨hc, -⟩
    exact Bool.false_ne_true hc

/-- Witness for the C9 amended theorem at concrete duplicate pairs for each
of the four models. -/
theorem C9_amended_witness :
    storageInsertFollow [⟨1, 2⟩] ⟨1, 2⟩ = .error .uniqueViolation ∧
    storageInsertShoppingCart [⟨1, 2⟩] ⟨1, 2⟩ = .error .uniqueViolation ∧
    storageInsertRecipeIngredient [⟨1, 2, 100⟩] ⟨1, 2, 50⟩ =
      .error .uniqueViolation ∧
    storageInsertFavorite [⟨1, 2⟩] ⟨1, 2⟩ = .ok [⟨1, 2⟩, ⟨1, 2⟩] :=
  ⟨C9_storage_uniqueness_amended.1 _ _ (by decide),
   C9_storage_uniqueness_amended.2.1 _ _ (by decide),
   C9_storage_uniqueness_amended.2.2.1 _ _ ⟨⟨1, 2, 100⟩, by decide, rfl, rfl⟩,
   C9_storage_uniqueness_amended.2.2.2 _ _⟩

/-- One primitive ORM write performed by `RecipeUpdateSerializer.update`
(api/serializers.py 400-406). The repository contains no
`transaction.atomic` block, so in the embedding each write takes effect as
soon as it is executed. -/
inductive UpdateStep where
  | deleteAll
  | insertLine (l : IngredientLine)
deriving DecidableEq, Repr

/-- The write sequence of `update`:
`instance.recipe_ingredients.all().delete()` followed by one
`RecipeIngredient.objects.create(...)` per submitted line, in order. -/
def updateWriteSeq (lines : List IngredientLine) : List UpdateStep :=
  .deleteAll :: lines.map .insertLine

/-- The stored row created for a submitted line of the given recipe. -/
def lineRow (recipeId : Nat) (l : IngredientLine) : RecipeIngredientRow :=
  ⟨recipeId, l.ingredient_id, l.amount⟩

/-- Effect of one write on the `RecipeIngredient` table. -/
def applyUpdateStep (recipeId : Nat) (rows : List RecipeIngredientRow) :
    UpdateStep → List RecipeIngredientRow
  | .deleteAll => rows.filter (fun r => !(r.recipe == recipeId))
  | .insertLine l => rows ++ [lineRow recipeId l]

/-- Table state after executing a sequence of writes; a request that fails
midway leaves the state of the prefix executed so far. -/
def runUpdateSteps (recipeId : Nat) (rows : List RecipeIngredientRow)
    (steps : List UpdateStep) : List RecipeIngredientRow :=
  steps.foldl (applyUpdateStep recipeId) rows

/-- Ingredient lines stored for one recipe. -/
def linesOf (recipeId : Nat) (rows : List RecipeIngredientRow) :
    List RecipeIngredientRow :=
  rows.filter (fun r => r.recipe == recipeId)

lemma runUpdateSteps_insert_list (recipeId : Nat) (ls : List IngredientLine) :
    ∀ rows, runUpdateSteps recipeId rows (ls.map .insertLine) =
      rows ++ ls.map (lineRow recipeId) := by
  induction ls with
  | nil => intro rows; simp [runUpdateSteps]
  | cons l t ih =>
    intro rows
    simp only [List.map_cons, runUpdateSteps, List.foldl_cons] at *
    rw [ih (applyUpdateStep recipeId rows (.insertLine l))]
    simp [applyUpdateStep]

lemma linesOf_append (recipeId : Nat) (a b : List RecipeIngredientRow) :
    linesOf recipeId (a ++ b) = linesOf recipeId a ++ linesOf recipeId b :=
  List.filter_append a b

lemma linesOf_deleteAll (recipeId : Nat) (rows : List RecipeIngredientRow) :
    linesOf recipeId (rows.filter (fun r => !(r.recipe == recipeId))) = [] := by
  rw [linesOf, List.filter_filter, List.filter_eq_nil_iff]
  intro r _
  cases h : r.recipe == recipeId <;> simp [h]

lemma linesOf_other_deleteAll {recipeId other : Nat} (hne : other ≠ recipeId)
    (rows : List RecipeIngredientRow) :
    linesOf other (rows.filter (fun r => !(r.recipe == recipeId))) =
      linesOf other rows := by
  rw [linesOf, List.filter_filter, linesOf]
  refine List.filter_congr ?_
  intro r _
  cases h : r.recipe == other with
  | false => simp [h]
  | true =>
    have : r.recipe = other := beq_iff_eq.mp h
    simp [h, this, hne]

lemma linesOf_new_rows (recipeId : Nat) (ls : List IngredientLine) :
    linesOf recipeId (ls.map (lineRow recipeId)) = ls.map (lineRow recipeId) := by
  rw [linesOf, List.filter_eq_self]
  intro r hr
  obtain ⟨l, -, rfl⟩ := List.mem_map.mp hr
  simp [lineRow]

lemma linesOf_other_new_rows {recipeId other : Nat} (hne : other ≠ recipeId)
    (ls : List IngredientLine) :
    linesOf other (ls.map (lineRow recipeId)) = [] := by
  rw [linesOf, List.filter_eq_nil_iff]
  intro r hr
  obtain ⟨l, -, rfl⟩ := List.mem_map.mp hr
  simp [lineRow, hne.symm]

/-- C5 counterexample: replacing the two stored lines of recipe 7 by the two
submitted lines, with each write taking immediate effect (there is no
transaction demarcation in the repository), goes through an observable state
with zero lines for the recipe (after the delete commits) and, if the run
fails after the first insert, strands the table with a single line equal to
neither the original nor the new set — the original ingredient-line set is
not restored. -/
theorem C5_counterexample :
    linesOf 7 (runUpdateSteps 7 [⟨7, 1, 100⟩, ⟨7, 2, 200⟩]
        ((updateWriteSeq [⟨3, 5⟩, ⟨4, 6⟩]).take 1)) = [] ∧
    linesOf 7 (runUpdateSteps 7 [⟨7, 1, 100⟩, ⟨7, 2, 200⟩]
        ((updateWriteSeq [⟨3, 5⟩, ⟨4, 6⟩]).take 2)) = [⟨7, 3, 5⟩] ∧
    linesOf 7 [⟨7, 1, 100⟩, ⟨7, 2, 200⟩] = [⟨7, 1, 100⟩, ⟨7, 2, 200⟩] := by
  decide

/-- C5 amended: the ingredient-line replacement is a delete of all existing
lines followed by per-line inserts, each effective immediately and with no
enclosing transaction: after the delete plus the first k inserts the recipe
stores exactly the first k new lines (its original lines are already gone,
and k = 0 exhibits an observable zero-line state), only the fully executed
sequence yields the complete new set, and the lines of every other recipe
are untouched by every prefix of the sequence. -/
theorem C5_update_not_atomic_amended (recipeId : Nat)
    (rows : List RecipeIngredientRow) (lines : List IngredientLine) (k : Nat)
    (hk : k ≤ lines.length) :
    linesOf recipeId (runUpdateSteps recipeId rows
        ((updateWriteSeq lines).take (k + 1))) =
      (lines.take k).map (lineRow recipeId) ∧
    linesOf recipeId (runUpdateSteps recipeId rows (updateWriteSeq lines)) =
      lines.map (lineRow recipeId) ∧
    (∀ other : Nat, other ≠ recipeId → ∀ j : Nat,
      linesOf other (runUpdateSteps recipeId rows
        ((updateWriteSeq lines).take j)) = linesOf other rows) := by
  have hrun : ∀ m : Nat, runUpdateSteps recipeId rows
      ((updateWriteSeq lines).take (m + 1)) =
        rows.filter (fun r => !(r.recipe == recipeId)) ++
          (lines.take m).map (lineRow recipeId) := by
    intro m
    rw [updateWriteSeq, List.take_succ_cons, ← List.map_take]
    rw [runUpdateSteps, List.foldl_cons]
    exact runUpdateSteps_insert_list recipeId (lines.take m) _
  refine ⟨?_, ?_, ?_⟩
  · rw [hrun k, linesOf_append, linesOf_deleteAll, linesOf_new_rows,
      List.nil_append]
  · have hfull : runUpdateSteps recipeId rows (updateWriteSeq lines) =
        rows.filter (fun r => !(r.recipe == recipeId)) ++
          lines.map (lineRow recipeId) := by
      have := hrun lines.length
      rwa [List.take_of_length_le (by rw [updateWriteSeq, List.length_cons,
        List.length_map]), List.take_of_length_le (Nat.le_refl _)] at this
    rw [hfull, linesOf_append, linesOf_deleteAll, linesOf_new_rows,
      List.nil_append]
  · intro other hne j
    cases j with
    | zero => rfl
    | succ m =>
      rw [hrun m, linesOf_append, linesOf_other_deleteAll hne,
        linesOf_other_new_rows hne, List.append_nil]

/-- Witness for the C5 amended theorem: failing after the first insert
leaves recipe 7 with exactly the first new line, and recipe 9's lines
survive every prefix. -/
theorem C5_amended_witness :
    linesOf 7 (runUpdateSteps 7 [⟨7, 1, 100⟩, ⟨9, 1, 50⟩]
        ((updateWriteSeq [⟨3, 5⟩, ⟨4, 6⟩]).take 2)) = [⟨7, 3, 5⟩] ∧
    linesOf 9 (runUpdateSteps 7 [⟨7, 1, 100⟩, ⟨9, 1, 50⟩]
        ((updateWriteSeq [⟨3, 5⟩, ⟨4, 6⟩]).take 1)) =
      linesOf 9 [⟨7, 1, 100⟩, ⟨9, 1, 50⟩] := by
  constructor
  · have h := (C5_update_not_atomic_amended 7 [⟨7, 1, 100⟩, ⟨9, 1, 50⟩]
      [⟨3, 5⟩, ⟨4, 6⟩] 1 (by decide)).1
    simpa using h
  · exact (C5_update_not_atomic_amended 7 [⟨7, 1, 100⟩, ⟨9, 1, 50⟩]
      [⟨3, 5⟩, ⟨4, 6⟩] 1 (by decide)).2.2 9 (by decide) 1

/-- A stored recipe row (`recipes.models.Recipe`), restricted to the fields
the embedded operations read or write. -/
structure RecipeRow where
  id : Nat
  author : Nat
  name : List Char
  text : List Char
  cooking_time : Int
deriving DecidableEq, Repr

/-- The relational state read and written by the embedded views: one list
per table. -/
structure DB where
  ingredients : List Ingredient
  recipes : List RecipeRow
  recipe_ingredients : List RecipeIngredientRow
  follows : List FollowRow
  favorites : List UserRecipePair
  shopping_cart : List UserRecipePair
deriving DecidableEq, Repr

/-- The user's cart rows: `ShoppingCart.objects.filter(user=request.user)`. -/
def cartEntries (db : DB) (user : Nat) : List UserRecipePair :=
  db.shopping_cart.filter (fun e => e.user == user)

/-- The cart's recipe ids: `.values_list('recipe', flat=True)`. -/
def cartRecipes (db : DB) (user : Nat) : List Nat :=
  (cartEntries db user).map (fun e => e.recipe)

/-- The ingredient lines of every cart recipe:
`RecipeIngredient.objects.filter(recipe__in=recipes)`. -/
def cartLines (db : DB) (user : Nat) : List RecipeIngredientRow :=
  db.recipe_ingredients.filter (fun ri => (cartRecipes db user).contains ri.recipe)

/-- The `(ingredient__name, ingredient__measurement_unit)` pair joined in
through the line's `ingredient` foreign key. -/
def ingredientKey (db : DB) (ingredientId : Nat) : List Char × List Char :=
  match db.ingredients.find? (fun i => i.id == ingredientId) with
  | some i => (i.name, i.measurement_unit)
  | none => ([], [])

/-- Add one line's amount into the grouped totals, merging with the
existing group for the same (name, unit) key if any. -/
def addToGroup (acc : List ((List Char × List Char) × Int))
    (key : List Char × List Char) (amount : Int) :
    List ((List Char × List Char) × Int) :=
  match acc with
  | [] => [(key, amount)]
  | (k, s) :: rest =>
    if k = key then (k, s + amount) :: rest
    else (k, s) :: addToGroup rest key amount

/-- The grouping query `.values('ingredient__name',
'ingredient__measurement_unit').annotate(amount=Sum('amount'))`: group the
cart's lines by their (name, unit) pair and sum the amounts per group. -/
def groupedIngredients (db : DB) (user : Nat) :
    List ((List Char × List Char) × Int) :=
  (cartLines db user).foldl
    (fun acc ri => addToGroup acc (ingredientKey db ri.ingredient) ri.amount) []

/-- The total reported for a (name, unit) key: the summed amount of the
first (and, keys being unique, only) group line carrying that key, or 0 when
the key is absent from the report. -/
def totalFor (items : List ((List Char × List Char) × Int))
    (key : List Char × List Char) : Int :=
  match items with
  | [] => 0
  | (k, s) :: rest => if k = key then s else totalFor rest key

/-- The reference total for a key, straight from the specification: the sum
of the amounts of all cart lines whose ingredient carries that (name, unit)
pair — regardless of the ingredient id, so catalog rows sharing a name and
unit are merged. -/
def keyTotal (db : DB) (user : Nat) (key : List Char × List Char) : Int :=
  (((cartLines db user).filter
    (fun ri => ingredientKey db ri.ingredient = key)).map
      (fun ri => ri.amount)).sum

/-- Python `str(...)` applied to a summed amount. -/
def intStr (n : Int) : List Char :=
  if n < 0 then '-' :: Nat.toDigits 10 n.natAbs else Nat.toDigits 10 n.natAbs

/-- One report line, the f-string
`"{name}({measurement_unit}): {summed_amount}"` plus the trailing
newline. -/
def shoppingLine (item : (List Char × List Char) × Int) : List Char :=
  item.1.1 ++ "(".toList ++ item.1.2 ++ "): ".toList ++
    intStr item.2 ++ "\n".toList

/-- The report header the loop starts from. -/
def shoppingHeader : List Char := "Список покупок:\n\n".toList

/-- The content accumulation loop of `download_shopping_cart`
(api/views.py 345-351): start from the header and append one line per
grouped ingredient. -/
def shoppingContent (items : List ((List Char × List Char) × Int)) :
    List Char :=
  items.foldl (fun content item => content ++ shoppingLine item) shoppingHeader

/-- `RecipeViewSet.download_shopping_cart` (api/views.py 331-356): a 400
EmptyCart error when the user's cart has no entries, otherwise the
plain-text report over the grouped totals. -/
def download_shopping_cart (db : DB) (user : Nat) :
    Except ApiError (List Char) :=
  if (cartEntries db user).isEmpty then .error .emptyCart
  else .ok (shoppingContent (groupedIngredients db user))

lemma totalFor_addToGroup (acc : List ((List Char × List Char) × Int))
    (key' key : List Char × List Char) (amt : Int) :
    totalFor (addToGroup acc key' amt) key =
      totalFor acc key + (if key' = key then amt else 0) := by
  induction acc with
  | nil =>
    by_cases h : key' = key <;> simp [addToGroup, totalFor, h]
  | cons e rest ih =>
    obtain ⟨k, s⟩ := e
    by_cases hk : k = key'
    · subst hk
      by_cases h : k = key <;> simp [addToGroup, totalFor, h] <;> ring
    · by_cases h : k = key
      · subst h
        simp [addToGroup, totalFor, hk, Ne.symm hk]
      · simp [addToGroup, totalFor, hk, h, ih]

lemma totalFor_fold (keyOf : RecipeIngredientRow → List Char × List Char)
    (key : List Char × List Char) :
    ∀ (lines : List RecipeIngredientRow)
      (acc : List ((List Char × List Char) × Int)),
      totalFor (lines.foldl
          (fun acc ri => addToGroup acc (keyOf ri) ri.amount) acc) key =
        totalFor acc key +
          ((lines.filter (fun ri => keyOf ri = key)).map
            (fun ri => ri.amount)).sum := by
  intro lines
  induction lines with
  | nil => intro acc; simp
  | cons ri t ih =>
    intro acc
    rw [List.foldl_cons, ih, totalFor_addToGroup]
    by_cases h : keyOf ri = key
    · rw [List.filter_cons_of_pos (by simpa using h), List.map_cons,
        List.sum_cons, if_pos h]
      ring
    · rw [List.filter_cons_of_neg (by simpa using h), if_neg h]
      ring

/-- The grouped report's total for every (name, unit) key equals the plain
filtered sum of the cart lines carrying that key. -/
lemma grouped_totalFor (db : DB) (user : Nat) (key : List Char × List Char) :
    totalFor (groupedIngredients db user) key = keyTotal db user key := by
  rw [groupedIngredients, totalFor_fold]
  simp [keyTotal, totalFor]

lemma keys_addToGroup (acc : List ((List Char × List Char) × Int))
    (key : List Char × List Char) (amt : Int) :
    (addToGroup acc key amt).map Prod.fst =
      if key ∈ acc.map Prod.fst then acc.map Prod.fst
      else acc.map Prod.fst ++ [key] := by
  induction acc with
  | nil => simp [addToGroup]
  | cons e rest ih =>
    obtain ⟨k, s⟩ := e
    by_cases hk : k = key
    · subst hk
      simp [addToGroup]
    · simp only [addToGroup, if_neg hk, List.map_cons, ih, List.mem_cons]
      by_cases h : key ∈ rest.map Prod.fst
      · rw [if_pos h, if_pos (Or.inr h)]
      · rw [if_neg h, if_neg (by
          rintro (hc | hc)
          · exact hk hc.symm
          · exact h hc)]
        simp

lemma keys_nodup_addToGroup (acc : List ((List Char × List Char) × Int))
    (key : List Char × List Char) (amt : Int)
    (h : (acc.map Prod.fst).Nodup) :
    ((addToGroup acc key amt).map Prod.fst).Nodup := by
  rw [keys_addToGroup]
  by_cases hm : key ∈ acc.map Prod.fst
  · rwa [if_pos hm]
  · rw [if_neg hm, List.nodup_append]
    exact ⟨h, List.nodup_singleton key, by simpa using hm⟩

lemma keys_nodup_fold (keyOf : RecipeIngredientRow → List Char × List Char) :
    ∀ (lines : List RecipeIngredientRow)
      (acc : List ((List Char × List Char) × Int)),
      (acc.map Prod.fst).Nodup →
      ((lines.foldl
          (fun acc ri => addToGroup acc (keyOf ri) ri.amount) acc).map
        Prod.fst).Nodup := by
  intro lines
  induction lines with
  | nil => intro acc h; simpa using h
  | cons ri t ih =>
    intro acc h
    rw [List.foldl_cons]
    exact ih _ (keys_nodup_addToGroup acc _ _ h)

/-- Each (name, unit) key occurs on at most one line of the grouped
report: catalog rows with equal name and unit merge. -/
lemma grouped_keys_nodup (db : DB) (user : Nat) :
    ((groupedIngredients db user).map Prod.fst).Nodup :=
  keys_nodup_fold _ (cartLines db user) [] (by simp)

lemma ingredientKey_congr {db db2 : DB}
    (h : db2.ingredients = db.ingredients) (i : Nat) :
    ingredientKey db2 i = ingredientKey db i := by
  rw [ingredientKey, ingredientKey, h]

/-- Cart permutation does not change which ingredient lines are selected:
the `recipe__in` filter only consults membership. -/
lemma cartLines_perm_eq {db db2 : DB} {user : Nat}
    (hing : db2.recipe_ingredients = db.recipe_ingredients)
    (hperm : List.Perm db2.shopping_cart db.shopping_cart) :
    cartLines db2 user = cartLines db user := by
  rw [cartLines, cartLines, hing]
  refine List.filter_congr ?_
  intro ri _
  have hp : List.Perm (cartRecipes db2 user) (cartRecipes db user) :=
    (hperm.filter _).map _
  cases hc : (cartRecipes db user).contains ri.recipe with
  | true => exact contains_of_mem (hp.mem_iff.mpr (mem_of_contains hc))
  | false =>
    cases hc2 : (cartRecipes db2 user).contains ri.recipe with
    | false => rfl
    | true =>
      have hm := hp.mem_iff.mp (mem_of_contains hc2)
      rw [contains_of_mem hm] at hc
      exact hc

lemma keyTotal_perm_eq {db db2 : DB} {user : Nat}
    (hing : db2.ingredients = db.ingredients)
    (hri : db2.recipe_ingredients = db.recipe_ingredients)
    (hperm : List.Perm db2.shopping_cart db.shopping_cart)
    (key : List Char × List Char) :
    keyTotal db2 user key = keyTotal db user key := by
  rw [keyTotal, keyTotal, cartLines_perm_eq hri hperm]
  congr 1
  congr 1
  refine List.filter_congr ?_
  intro ri _
  simp [ingredientKey_congr hing]

/-- C1: for a user with a non-empty cart, `download_shopping_cart` returns
the report over the grouped totals, in which each (name, unit) key occurs on
at most one line — catalog ingredients sharing a display name and unit merge
— and the total of every key equals the sum of the amounts of all cart
lines carrying that key; the totals are invariant under permuting the cart
table, and a user with an empty cart gets the EmptyCart error instead. -/
theorem C1_shopping_cart_totals (db : DB) (user : Nat) :
    (cartEntries db user ≠ [] →
      download_shopping_cart db user =
        .ok (shoppingContent (groupedIngredients db user)) ∧
      ((groupedIngredients db user).map Prod.fst).Nodup ∧
      ∀ key, totalFor (groupedIngredients db user) key =
        keyTotal db user key) ∧
    (∀ db2 : DB, db2.ingredients = db.ingredients →
      db2.recipe_ingredients = db.recipe_ingredients →
      List.Perm db2.shopping_cart db.shopping_cart →
      ∀ key, totalFor (groupedIngredients db2 user) key =
        totalFor (groupedIngredients db user) key) ∧
    (cartEntries db user = [] →
      download_shopping_cart db user = .error .emptyCart) := by
  refine ⟨?_, ?_, ?_⟩
  · intro h
    have hne : (cartEntries db user).isEmpty = false := by
      cases hc : cartEntries db user with
      | nil => exact absurd hc h
      | cons a t => rfl
    refine ⟨?_, grouped_keys_nodup db user, fun key => grouped_totalFor db user key⟩
    rw [download_shopping_cart, hne]
    rfl
  · intro db2 hing hri hperm key
    rw [grouped_totalFor, grouped_totalFor]
    exact keyTotal_perm_eq hing hri hperm key
  · intro h
    rw [download_shopping_cart, h]
    rfl

/-- A concrete state used by the aggregation witnesses: user 1's cart holds
recipes 1 and 2, whose lines reference two distinct catalog ingredients that
share the display pair (сахар, г), plus one flour line. -/
def sampleDB : DB :=
  { ingredients := [⟨1, "сахар".toList, "г".toList⟩,
      ⟨2, "сахар".toList, "г".toList⟩, ⟨3, "мука".toList, "г".toList⟩],
    recipes := [⟨1, 1, "торт".toList, [], 30⟩, ⟨2, 1, "блины".toList, [], 20⟩],
    recipe_ingredients := [⟨1, 1, 200⟩, ⟨2, 2, 100⟩, ⟨2, 3, 50⟩],
    follows := [],
    favorites := [],
    shopping_cart := [⟨1, 1⟩, ⟨1, 2⟩] }

/-- The sample state with the two cart rows swapped. -/
def sampleDBswapped : DB :=
  { sampleDB with shopping_cart := [⟨1, 2⟩, ⟨1, 1⟩] }

/-- Witness for C1 at the sample state: the cart is non-empty, the grouped
total for (сахар, г) equals the filtered sum, that sum merges the two
distinct catalog ids into 300, and swapping the cart rows leaves the total
unchanged. -/
theorem C1_witness :
    cartEntries sampleDB 1 ≠ [] ∧
    totalFor (groupedIngredients sampleDB 1) ("сахар".toList, "г".toList) =
      keyTotal sampleDB 1 ("сахар".toList, "г".toList) ∧
    keyTotal sampleDB 1 ("сахар".toList, "г".toList) = 300 ∧
    totalFor (groupedIngredients sampleDBswapped 1)
        ("сахар".toList, "г".toList) =
      totalFor (groupedIngredients sampleDB 1) ("сахар".toList, "г".toList) :=
  ⟨by decide,
   ((C1_shopping_cart_totals sampleDB 1).1 (by decide)).2.2 _,
   by decide,
   (C1_shopping_cart_totals sampleDB 1).2.1 sampleDBswapped rfl rfl
     (by decide) _⟩

lemma foldl_append_eq_flatten {α : Type} (f : α → List Char) :
    ∀ (l : List α) (init : List Char),
      l.foldl (fun acc x => acc ++ f x) init = init ++ (l.map f).flatten := by
  intro l
  induction l with
  | nil => intro init; simp
  | cons x t ih =>
    intro init
    rw [List.foldl_cons, ih, List.map_cons, List.flatten_cons,
      ← List.append_assoc]

/-- C2: for every non-empty cart the produced text is exactly the header
line, then one line of the exact form name, opening parenthesis, unit,
closing parenthesis, colon, space, summed amount, newline — per grouped
ingredient, with no other characters. -/
theorem C2_report_exact_format (db : DB) (user : Nat)
    (h : cartEntries db user ≠ []) :
    download_shopping_cart db user =
      .ok ("Список покупок:\n\n".toList ++
        ((groupedIngredients db user).map (fun item =>
          item.1.1 ++ "(".toList ++ item.1.2 ++ "): ".toList ++
            intStr item.2 ++ "\n".toList)).flatten) := by
  have hne : (cartEntries db user).isEmpty = false := by
    cases hc : cartEntries db user with
    | nil => exact absurd hc h
    | cons a t => rfl
  rw [download_shopping_cart, hne]
  show Except.ok (shoppingContent (groupedIngredients db user)) = _
  rw [shoppingContent, foldl_append_eq_flatten shoppingLine]
  rfl

/-- Witness for C2 at the sample state. -/
theorem C2_witness :
    download_shopping_cart sampleDB 1 =
      .ok ("Список покупок:\n\n".toList ++
        ((groupedIngredients sampleDB 1).map (fun item =>
          item.1.1 ++ "(".toList ++ item.1.2 ++ "): ".toList ++
            intStr item.2 ++ "\n".toList)).flatten) :=
  C2_report_exact_format sampleDB 1 (by decide)

/-- Bounds constants from recipes/models.py (`MIN_COOKING_TIME = 1`,
`MAX_COOKING_TIME = 32000`), used by the validators of both
`Recipe.cooking_time` and `RecipeIngredient.amount`. -/
def MIN_COOKING_TIME : Int := 1

/-- Upper bound shared by cooking times and amounts. -/
def MAX_COOKING_TIME : Int := 32000

/-- The range check induced by `MinValueValidator(MIN_COOKING_TIME)` and
`MaxValueValidator(MAX_COOKING_TIME)`; the serialization framework copies a
model field's validators onto the corresponding serializer field, where they
run during field-level input handling, before any object-level check. -/
def inBounds (v : Int) : Bool :=
  decide (MIN_COOKING_TIME ≤ v) && decide (v ≤ MAX_COOKING_TIME)

/-- A parsed recipe-creation payload (writable fields of
`RecipeSerializer`). -/
structure RecipePayload where
  name : List Char
  text : List Char
  cooking_time : Int
  ingredients : List IngredientLine
deriving DecidableEq, Repr

/-- Field-level validation of a creation payload: the nested `amount`
fields in submission order, then `cooking_time`. -/
def validateBounds (p : RecipePayload) : Except ApiError Unit :=
  match p.ingredients.find? (fun l => !(inBounds l.amount)) with
  | some l => .error (.amountOutOfRange l.ingredient_id l.amount)
  | none =>
    if !(inBounds p.cooking_time) then
      .error (.cookingTimeOutOfRange p.cooking_time)
    else .ok ()

/-- `RecipeViewSet.create` with `RecipeSerializer.{validate_ingredients,
create}` (api/views.py 231-245, api/serializers.py 149-182): field bounds,
then the ingredient-list checks, then the recipe row and its line rows are
inserted. `newId` stands for the fresh autoincrement primary key. A
returned error means nothing was written. -/
def recipe_create (db : DB) (author newId : Nat) (p : RecipePayload) :
    Except ApiError DB :=
  match validateBounds p with
  | .error e => .error e
  | .ok _ =>
    match RecipeSerializer.validate_ingredients db.ingredients p.ingredients with
    | .error e => .error e
    | .ok value =>
      .ok { db with
        recipes := db.recipes ++
          [⟨newId, author, p.name, p.text, p.cooking_time⟩],
        recipe_ingredients := db.recipe_ingredients ++
          value.map (lineRow newId) }

/-- A parsed recipe-update payload: `RecipeViewSet.update` always builds the
serializer with `partial=True`, so every writable field may be absent. -/
structure UpdatePayload where
  name : Option (List Char)
  text : Option (List Char)
  cooking_time : Option Int
  ingredients : Option (List IngredientLine)
deriving DecidableEq, Repr

/-- Field-level validation of an update payload: bounds run only for the
fields that are present. -/
def validateUpdateBounds (p : UpdatePayload) : Except ApiError Unit :=
  match (p.ingredients.getD []).find? (fun l => !(inBounds l.amount)) with
  | some l => .error (.amountOutOfRange l.ingredient_id l.amount)
  | none =>
    match p.cooking_time with
    | some t =>
      if !(inBounds t) then .error (.cookingTimeOutOfRange t) else .ok ()
    | none => .ok ()

/-- `RecipeViewSet.update` with `partial=True` and
`RecipeUpdateSerializer.{validate_ingredients, update}` (api/views.py
247-254, api/serializers.py 344-408): present fields are validated first;
`update` raises before mutating anything when the payload carries no
`ingredients`; otherwise the provided scalar fields are applied, keeping the
previous value of each absent one, and the line set is replaced by the
delete-then-insert write sequence. A returned error means nothing was
written. -/
def recipe_update (db : DB) (recipeId : Nat) (p : UpdatePayload) :
    Except ApiError DB :=
  match validateUpdateBounds p with
  | .error e => .error e
  | .ok _ =>
    match p.ingredients with
    | some lines =>
      match RecipeUpdateSerializer.validate_ingredients db.ingredients lines with
      | .error e => .error e
      | .ok value =>
        .ok { db with
          recipes := db.recipes.map (fun r =>
            if r.id == recipeId then
              { r with
                name := p.name.getD r.name,
                text := p.text.getD r.text,
                cooking_time := p.cooking_time.getD r.cooking_time }
            else r),
          recipe_ingredients :=
            runUpdateSteps recipeId db.recipe_ingredients
              (updateWriteSeq value) }
    | none => .error .missingIngredientsField

/-- POST branch of `RecipeViewSet.favorite` (api/views.py 274-287). -/
def favorite_post (favorites : List UserRecipePair) (user recipe : Nat) :
    Except ApiError (List UserRecipePair) :=
  if favorites.any (fun e => e.user == user && e.recipe == recipe) then
    .error .alreadyFavorited
  else .ok (favorites ++ [⟨user, recipe⟩])

/-- DELETE branch of `RecipeViewSet.favorite` (api/views.py 289-298):
`filter(...).first()` and delete that row. -/
def favorite_delete (favorites : List UserRecipePair) (user recipe : Nat) :
    Except ApiError (List UserRecipePair) :=
  if !(favorites.any (fun e => e.user == user && e.recipe == recipe)) then
    .error .notFavorited
  else .ok (favorites.erase ⟨user, recipe⟩)

/-- POST branch of `RecipeViewSet.shopping_cart` (api/views.py 305-316). -/
def shopping_cart_post (cart : List UserRecipePair) (user recipe : Nat) :
    Except ApiError (List UserRecipePair) :=
  if cart.any (fun e => e.user == user && e.recipe == recipe) then
    .error .alreadyInCart
  else .ok (cart ++ [⟨user, recipe⟩])

/-- DELETE branch of `RecipeViewSet.shopping_cart` (api/views.py
318-327). -/
def shopping_cart_delete (cart : List UserRecipePair) (user recipe : Nat) :
    Except ApiError (List UserRecipePair) :=
  if !(cart.any (fun e => e.user == user && e.recipe == recipe)) then
    .error .notInCart
  else .ok (cart.erase ⟨user, recipe⟩)

/-- The state-mutating API operations of the embedded core. -/
inductive Op where
  | createRecipe (author newId : Nat) (p : RecipePayload)
  | updateRecipe (recipeId : Nat) (p : UpdatePayload)
  | follow (user author : Nat)
  | unfollow (user author : Nat)
  | favoriteAdd (user recipe : Nat)
  | favoriteRemove (user recipe : Nat)
  | cartAdd (user recipe : Nat)
  | cartRemove (user recipe : Nat)
deriving DecidableEq, Repr

/-- Dispatch of one operation against the state; an error leaves the state
untouched (each handler validates before its first write). -/
def applyOp (db : DB) : Op → Except ApiError DB
  | .createRecipe author newId p => recipe_create db author newId p
  | .updateRecipe recipeId p => recipe_update db recipeId p
  | .follow u a =>
    (subscribe_post db.follows u a).map (fun fs => { db with follows := fs })
  | .unfollow u a =>
    (subscribe_delete db.follows u a).map (fun fs => { db with follows := fs })
  | .favoriteAdd u r =>
    (favorite_post db.favorites u r).map (fun fs => { db with favorites := fs })
  | .favoriteRemove u r =>
    (favorite_delete db.favorites u r).map
      (fun fs => { db with favorites := fs })
  | .cartAdd u r =>
    (shopping_cart_post db.shopping_cart u r).map
      (fun fs => { db with shopping_cart := fs })
  | .cartRemove u r =>
    (shopping_cart_delete db.shopping_cart u r).map
      (fun fs => { db with shopping_cart := fs })

/-- The persisted-bounds invariant: every stored amount and cooking time
lies in [1, 32000]. -/
def dbBoundsOK (db : DB) : Bool :=
  db.recipe_ingredients.all (fun r => inBounds r.amount) &&
    db.recipes.all (fun r => inBounds r.cooking_time)

/-- The stored recipe row with the given primary key, if any. -/
def recipeById (db : DB) (recipeId : Nat) : Option RecipeRow :=
  db.recipes.find? (fun r => r.id == recipeId)

lemma validate_ingredients_ok_eq {catalog : List Ingredient}
    {v w : List IngredientLine}
    (h : RecipeSerializer.validate_ingredients catalog v = .ok w) : w = v := by
  unfold RecipeSerializer.validate_ingredients at h
  dsimp only at h
  split at h
  · cases h
  · split at h
    · cases h
    · split at h
      · cases h
      · cases h
        rfl

lemma update_validate_ingredients_ok_eq {catalog : List Ingredient}
    {v w : List IngredientLine}
    (h : RecipeUpdateSerializer.validate_ingredients catalog v = .ok w) :
    w = v := by
  unfold RecipeUpdateSerializer.validate_ingredients at h
  dsimp only at h
  split at h
  · cases h
  · split at h
    · cases h
    · split at h
      · cases h
      · cases h
        rfl

lemma validateBounds_ok {p : RecipePayload} (h : validateBounds p = .ok ()) :
    (∀ l ∈ p.ingredients, inBounds l.amount = true) ∧
      inBounds p.cooking_time = true := by
  cases hf : p.ingredients.find? (fun l => !(inBounds l.amount)) with
  | some l => simp [validateBounds, hf] at h
  | none =>
    simp only [validateBounds, hf] at h
    constructor
    · intro l hl
      have hnp := List.find?_eq_none.mp hf l hl
      cases hb : inBounds l.amount with
      | true => rfl
      | false => exact absurd (by rw [hb]; rfl) hnp
    · cases hb : inBounds p.cooking_time with
      | true => rfl
      | false =>
        rw [hb] at h
        simp at h

lemma validateUpdateBounds_ok {p : UpdatePayload}
    (h : validateUpdateBounds p = .ok ()) :
    (∀ lines, p.ingredients = some lines →
      ∀ l ∈ lines, inBounds l.amount = true) ∧
    (∀ t, p.cooking_time = some t → inBounds t = true) := by
  cases hf : (p.ingredients.getD []).find? (fun l => !(inBounds l.amount)) with
  | some l => simp [validateUpdateBounds, hf] at h
  | none =>
    simp only [validateUpdateBounds, hf] at h
    constructor
    · intro lines hlines l hl
      have hnp := List.find?_eq_none.mp hf l (by rw [hlines]; exact hl)
      cases hb : inBounds l.amount with
      | true => rfl
      | false => exact absurd (by rw [hb]; rfl) hnp
    · intro t ht
      rw [ht] at h
      dsimp only at h
      cases hb : inBounds t with
      | true => rfl
      | false =>
        rw [hb] at h
        simp at h

lemma except_map_ok {ε α β : Type} {f : α → β} {x : Except ε α} {b : β}
    (h : Except.map f x = .ok b) : ∃ a, x = .ok a ∧ b = f a := by
  cases x with
  | error e => simp [Except.map] at h
  | ok a =>
    refine ⟨a, rfl, ?_⟩
    simp only [Except.map] at h
    exact (Except.ok.injEq _ _).mp h |>.symm

/-- The full write sequence replaces the recipe's rows: every other row is
kept and the new rows are appended. -/
lemma runUpdateSteps_full (recipeId : Nat) (rows : List RecipeIngredientRow)
    (lines : List IngredientLine) :
    runUpdateSteps recipeId rows (updateWriteSeq lines) =
      rows.filter (fun r => !(r.recipe == recipeId)) ++
        lines.map (lineRow recipeId) := by
  rw [updateWriteSeq, runUpdateSteps, List.foldl_cons]
  exact runUpdateSteps_insert_list recipeId lines _

lemma dbBoundsOK_split {db : DB} (h : dbBoundsOK db = true) :
    (∀ r ∈ db.recipe_ingredients, inBounds r.amount = true) ∧
      (∀ r ∈ db.recipes, inBounds r.cooking_time = true) := by
  rw [dbBoundsOK, Bool.and_eq_true, List.all_eq_true, List.all_eq_true] at h
  exact h

/-- C7: the bounds on amounts and cooking times are an invariant: whatever
operation succeeds on a state whose stored amounts and cooking times lie in
[1, 32000] yields a state whose stored amounts and cooking times again lie
in [1, 32000]; and a creation or update payload carrying any out-of-range
amount is rejected with an AmountOutOfRange error (reporting an out-of-range
amount) before anything is stored. -/
theorem C7_bounds_invariant (db : DB) (op : Op) :
    (dbBoundsOK db = true → ∀ db2 : DB, applyOp db op = .ok db2 →
      dbBoundsOK db2 = true) ∧
    (∀ author newId p, op = .createRecipe author newId p →
      (∃ l ∈ p.ingredients, inBounds l.amount = false) →
      ∃ id amt, applyOp db op = .error (.amountOutOfRange id amt) ∧
        inBounds amt = false) ∧
    (∀ recipeId p lines, op = .updateRecipe recipeId p →
      p.ingredients = some lines →
      (∃ l ∈ lines, inBounds l.amount = false) →
      ∃ id amt, applyOp db op = .error (.amountOutOfRange id amt) ∧
        inBounds amt = false) := by
  refine ⟨?_, ?_, ?_⟩
  · intro hdb db2 hok
    obtain ⟨hri, hrt⟩ := dbBoundsOK_split hdb
    cases op with
    | createRecipe author newId p =>
      simp only [applyOp] at hok
      cases hvb : validateBounds p with
      | error e => simp [recipe_create, hvb] at hok
      | ok u =>
        cases hval : RecipeSerializer.validate_ingredients db.ingredients
            p.ingredients with
        | error e => simp [recipe_create, hvb, hval] at hok
        | ok value =>
          simp only [recipe_create, hvb, hval] at hok
          obtain ⟨hbA, hbT⟩ := validateBounds_ok hvb
          have hveq := validate_ingredients_ok_eq hval
          subst hveq
          cases hok
          rw [dbBoundsOK, Bool.and_eq_true, List.all_eq_true,
            List.all_eq_true]
          constructor
          · intro r hr
            rw [List.mem_append] at hr
            cases hr with
            | inl hr => exact hri r hr
            | inr hr =>
              obtain ⟨l, hl, rfl⟩ := List.mem_map.mp hr
              exact hbA l hl
          · intro r hr
            rw [List.mem_append] at hr
            cases hr with
            | inl hr => exact hrt r hr
            | inr hr =>
              rw [List.mem_singleton] at hr
              rw [hr]
              exact hbT
    | updateRecipe recipeId p =>
      simp only [applyOp] at hok
      cases hvb : validateUpdateBounds p with
      | error e => simp [recipe_update, hvb] at hok
      | ok u =>
        cases hing : p.ingredients with
        | none => simp [recipe_update, hvb, hing] at hok
        | some lines =>
          cases hval : RecipeUpdateSerializer.validate_ingredients
              db.ingredients lines with
          | error e => simp [recipe_update, hvb, hing, hval] at hok
          | ok value =>
            simp only [recipe_update, hvb, hing, hval] at hok
            obtain ⟨hbA, hbT⟩ := validateUpdateBounds_ok hvb
            have hveq := update_validate_ingredients_ok_eq hval
            subst hveq
            cases hok
            rw [dbBoundsOK, Bool.and_eq_true, List.all_eq_true,
              List.all_eq_true]
            constructor
            · intro r hr
              rw [runUpdateSteps_full, List.mem_append] at hr
              cases hr with
              | inl hr => exact hri r (List.mem_of_mem_filter hr)
              | inr hr =>
                obtain ⟨l, hl, rfl⟩ := List.mem_map.mp hr
                exact hbA _ hing l hl
            · intro r hr
              obtain ⟨r0, hr0, rfl⟩ := List.mem_map.mp hr
              by_cases hid : (r0.id == recipeId) = true
              · rw [if_pos hid]
                cases hct : p.cooking_time with
                | none => simpa [hct] using hrt r0 hr0
                | some t => simpa [hct] using hbT t hct
              · rw [if_neg hid]
                exact hrt r0 hr0
    | follow u a =>
      obtain ⟨fs, -, rfl⟩ := except_map_ok hok
      exact hdb
    | unfollow u a =>
      obtain ⟨fs, -, rfl⟩ := except_map_ok hok
      exact hdb
    | favoriteAdd u r =>
      obtain ⟨fs, -, rfl⟩ := except_map_ok hok
      exact hdb
    | favoriteRemove u r =>
      obtain ⟨fs, -, rfl⟩ := except_map_ok hok
      exact hdb
    | cartAdd u r =>
      obtain ⟨fs, -, rfl⟩ := except_map_ok hok
      exact hdb
    | cartRemove u r =>
      obtain ⟨fs, -, rfl⟩ := except_map_ok hok
      exact hdb
  · rintro author newId p rfl ⟨l, hl, hbad⟩
    have hsome : (p.ingredients.find? (fun l => !(inBounds l.amount))).isSome := by
      rw [List.find?_isSome]
      exact ⟨l, hl, by rw [hbad]; rfl⟩
    obtain ⟨l0, hfind⟩ := Option.isSome_iff_exists.mp hsome
    have hl0bad : inBounds l0.amount = false := by
      have := List.find?_some hfind
      cases hb : inBounds l0.amount with
      | false => rfl
      | true => rw [hb] at this; exact absurd this (by simp)
    refine ⟨l0.ingredient_id, l0.amount, ?_, hl0bad⟩
    simp only [applyOp, recipe_create, validateBounds, hfind]
  · rintro recipeId p lines rfl hing ⟨l, hl, hbad⟩
    have hsome : ((p.ingredients.getD []).find?
        (fun l => !(inBounds l.amount))).isSome := by
      rw [List.find?_isSome]
      exact ⟨l, by rw [hing]; exact hl, by rw [hbad]; rfl⟩
    obtain ⟨l0, hfind⟩ := Option.isSome_iff_exists.mp hsome
    have hl0bad : inBounds l0.amount = false := by
      have := List.find?_some hfind
      cases hb : inBounds l0.amount with
      | false => rfl
      | true => rw [hb] at this; exact absurd this (by simp)
    refine ⟨l0.ingredient_id, l0.amount, ?_, hl0bad⟩
    simp only [applyOp, recipe_update, validateUpdateBounds, hfind]

/-- Witness for C7: the sample state satisfies the invariant, a follow
operation preserves it, and a creation payload with amount 0 is rejected
with AmountOutOfRange. -/
theorem C7_witness :
    dbBoundsOK sampleDB = true ∧
    applyOp sampleDB (.follow 1 2) =
      .ok { sampleDB with follows := [⟨1, 2⟩] } ∧
    dbBoundsOK { sampleDB with follows := [⟨1, 2⟩] } = true ∧
    applyOp sampleDB (.createRecipe 1 3 ⟨"x".toList, [], 10, [⟨1, 0⟩]⟩) =
      .error (.amountOutOfRange 1 0) := by
  refine ⟨by decide, by decide, ?_, ?_⟩
  · exact (C7_bounds_invariant sampleDB (.follow 1 2)).1 (by decide) _
      (by decide)
  · obtain ⟨id, amt, heq, -⟩ :=
      (C7_bounds_invariant sampleDB
        (.createRecipe 1 3 ⟨"x".toList, [], 10, [⟨1, 0⟩]⟩)).2.1 1 3 _ rfl
        ⟨⟨1, 0⟩, by decide, by decide⟩
    have heval : applyOp sampleDB
        (.createRecipe 1 3 ⟨"x".toList, [], 10, [⟨1, 0⟩]⟩) =
        .error (.amountOutOfRange 1 0) := by decide
    exact heval

lemma find?_map_pred {α : Type} (g : α → α) (q : α → Bool)
    (hg : ∀ a, q (g a) = q a) :
    ∀ l : List α, (l.map g).find? q = (l.find? q).map g := by
  intro l
  induction l with
  | nil => rfl
  | cons a t ih =>
    rw [List.map_cons, List.find?_cons, List.find?_cons, hg a]
    cases q a with
    | true => rfl
    | false => exact ih

lemma recipeById_after_update (db : DB) (recipeId : Nat) (p : UpdatePayload)
    (value : List IngredientLine) :
    recipeById { db with
        recipes := db.recipes.map (fun r =>
          if r.id == recipeId then
            { r with
              name := p.name.getD r.name,
              text := p.text.getD r.text,
              cooking_time := p.cooking_time.getD r.cooking_time }
          else r),
        recipe_ingredients := runUpdateSteps recipeId db.recipe_ingredients
          (updateWriteSeq value) } recipeId =
      (recipeById db recipeId).map (fun r =>
        if r.id == recipeId then
          { r with
            name := p.name.getD r.name,
            text := p.text.getD r.text,
            cooking_time := p.cooking_time.getD r.cooking_time }
        else r) := by
  rw [recipeById, recipeById]
  exact find?_map_pred _ _
    (fun r => by by_cases h : (r.id == recipeId) = true <;> simp [h])
    db.recipes

/-- C10: an update request (the view always runs the serializer with
`partial=True`, for both full and partial updates) whose payload omits the
`ingredients` field is rejected with a validation error — the raise in
`RecipeUpdateSerializer.update` precedes every mutation, so the recipe is
left unchanged — while an omitted `name`, `text` or `cooking_time` keeps
its previous stored value in the updated recipe. -/
theorem C10_update_requires_ingredients (db : DB) (recipeId : Nat)
    (p : UpdatePayload) :
    (p.ingredients = none → validateUpdateBounds p = .ok () →
      recipe_update db recipeId p = .error .missingIngredientsField) ∧
    (p.ingredients = none → ∀ e, validateUpdateBounds p = .error e →
      recipe_update db recipeId p = .error e) ∧
    (∀ db2, recipe_update db recipeId p = .ok db2 →
      p.ingredients ≠ none ∧
      (p.name = none → (recipeById db2 recipeId).map (fun r => r.name) =
        (recipeById db recipeId).map (fun r => r.name)) ∧
      (p.text = none → (recipeById db2 recipeId).map (fun r => r.text) =
        (recipeById db recipeId).map (fun r => r.text)) ∧
      (p.cooking_time = none →
        (recipeById db2 recipeId).map (fun r => r.cooking_time) =
          (recipeById db recipeId).map (fun r => r.cooking_time))) := by
  refine ⟨?_, ?_, ?_⟩
  · intro hing hvb
    simp only [recipe_update, hvb, hing]
  · intro hing e hvb
    simp only [recipe_update, hvb]
  · intro db2 hok
    cases hvb : validateUpdateBounds p with
    | error e => simp [recipe_update, hvb] at hok
    | ok u =>
      cases hing : p.ingredients with
      | none => simp [recipe_update, hvb, hing] at hok
      | some lines =>
        cases hval : RecipeUpdateSerializer.validate_ingredients
            db.ingredients lines with
        | error e => simp [recipe_update, hvb, hing, hval] at hok
        | ok value =>
          simp only [recipe_update, hvb, hing, hval] at hok
          cases hok
          refine ⟨by simp [hing], ?_, ?_, ?_⟩
          · intro hnone
            rw [recipeById_after_update]
            cases recipeById db recipeId with
            | none => rfl
            | some r0 =>
              by_cases hid : (r0.id == recipeId) = true
              · have hq := beq_iff_eq.mp hid
                simp [hq, hnone]
              · have hq : ¬ (r0.id = recipeId) := fun hc => hid (beq_iff_eq.mpr hc)
                simp [hq]
          · intro hnone
            rw [recipeById_after_update]
            cases recipeById db recipeId with
            | none => rfl
            | some r0 =>
              by_cases hid : (r0.id == recipeId) = true
              · have hq := beq_iff_eq.mp hid
                simp [hq, hnone]
              · have hq : ¬ (r0.id = recipeId) := fun hc => hid (beq_iff_eq.mpr hc)
                simp [hq]
          · intro hnone
            rw [recipeById_after_update]
            cases recipeById db recipeId with
            | none => rfl
            | some r0 =>
              by_cases hid : (r0.id == recipeId) = true
              · have hq := beq_iff_eq.mp hid
                simp [hq, hnone]
              · have hq : ¬ (r0.id = recipeId) := fun hc => hid (beq_iff_eq.mpr hc)
                simp [hq]

/-- Update payload omitting every field. -/
def emptyUpdatePayload : UpdatePayload := ⟨none, none, none, none⟩

/-- Update payload providing only new ingredients and a new cooking time. -/
def partialUpdatePayload : UpdatePayload :=
  ⟨none, none, some 25, some [⟨1, 5⟩]⟩

/-- The sample state after applying `partialUpdatePayload` to recipe 1. -/
def sampleDBupdated : DB :=
  { sampleDB with
    recipes := [⟨1, 1, "торт".toList, [], 25⟩,
      ⟨2, 1, "блины".toList, [], 20⟩],
    recipe_ingredients := [⟨2, 2, 100⟩, ⟨2, 3, 50⟩, ⟨1, 1, 5⟩] }

/-- Witness for C10 at the sample state: omitting `ingredients` is rejected,
and the partial update that omits `name` keeps the stored name. -/
theorem C10_witness :
    recipe_update sampleDB 1 emptyUpdatePayload =
      .error .missingIngredientsField ∧
    recipe_update sampleDB 1 partialUpdatePayload = .ok sampleDBupdated ∧
    (recipeById sampleDBupdated 1).map (fun r => r.name) =
      (recipeById sampleDB 1).map (fun r => r.name) :=
  ⟨(C10_update_requires_ingredients sampleDB 1 emptyUpdatePayload).1 rfl rfl,
   by decide,
   ((C10_update_requires_ingredients sampleDB 1 partialUpdatePayload).2.2
     sampleDBupdated (by decide)).2.1 rfl⟩

/-- Value of a character in the standard base64 alphabet
(`A-Z`, `a-z`, `0-9`, `+`, `/`), none for characters outside it — the
table `binascii.a2b_base64` decodes with. -/
def b64val (c : Char) : Option Nat :=
  if 'A' ≤ c ∧ c ≤ 'Z' then some (c.toNat - 65)
  else if 'a' ≤ c ∧ c ≤ 'z' then some (c.toNat - 97 + 26)
  else if '0' ≤ c ∧ c ≤ '9' then some (c.toNat - 48 + 52)
  else if c = '+' then some 62
  else if c = '/' then some 63
  else none

/-- Character encoding a 6-bit value in the standard base64 alphabet. -/
def b64chr (v : Nat) : Char :=
  if v < 26 then Char.ofNat (65 + v)
  else if v < 52 then Char.ofNat (97 + (v - 26))
  else if v < 62 then Char.ofNat (48 + (v - 52))
  else if v = 62 then '+'
  else '/'

/-- Python `base64.b64encode` on a byte string (used by the avatar
serializer to build data URIs): each 3-byte group becomes 4 characters and
a trailing group of 1 or 2 bytes is completed with `=` padding. -/
def b64encode : List Nat → List Char
  | [] => []
  | [b1] => [b64chr (b1 / 4), b64chr (b1 % 4 * 16), '=', '=']
  | [b1, b2] =>
    [b64chr (b1 / 4), b64chr (b1 % 4 * 16 + b2 / 16), b64chr (b2 % 16 * 4), '=']
  | b1 :: b2 :: b3 :: rest =>
    b64chr (b1 / 4) :: b64chr (b1 % 4 * 16 + b2 / 16) ::
      b64chr (b2 % 16 * 4 + b3 / 64) :: b64chr (b3 % 64) :: b64encode rest

/-- Quad-wise base64 decoding, with `=` padding accepted only in the final
quad. -/
def b64decodeQuads : List Char → Option (List Nat)
  | [] => some []
  | c1 :: c2 :: c3 :: c4 :: rest =>
    match b64val c1, b64val c2 with
    | some v1, some v2 =>
      if c3 = '=' then
        if c4 = '=' ∧ rest = [] then some [v1 * 4 + v2 / 16] else none
      else
        match b64val c3 with
        | some v3 =>
          if c4 = '=' then
            if rest = [] then some [v1 * 4 + v2 / 16, v2 % 16 * 16 + v3 / 4]
            else none
          else
            match b64val c4 with
            | some v4 =>
              match b64decodeQuads rest with
              | some bs => some ((v1 * 4 + v2 / 16) ::
                  (v2 % 16 * 16 + v3 / 4) :: (v3 % 4 * 64 + v4) :: bs)
              | none => none
            | none => none
        | none => none
    | _, _ => none
  | _ => none

/-- Python `base64.b64decode` (`binascii.a2b_base64`): characters outside
the alphabet and padding are discarded; if the remaining length is not a
multiple of 4 the call raises `binascii.Error` (modelled as `none`, an
incorrect-padding failure); otherwise the quads are decoded. There is no
padding fix-up anywhere on this path. -/
def b64decode (s : List Char) : Option (List Nat) :=
  let cs := s.filter (fun c => (b64val c).isSome || c == '=')
  if cs.length % 4 == 0 then b64decodeQuads cs else none

/-- Outcome of the image field's input handling: a decoded upload, a
fall-through to the plain `ImageField` path, or an uncaught Python
exception that aborts the request. -/
inductive FieldOutcome where
  | file (bytes : List Nat) (ext : List Char)
  | passthrough
  | pyError
deriving DecidableEq, Repr

/-- Whether the first list is a leading segment of the second. -/
def startsWithSeq : List Char → List Char → Bool
  | [], _ => true
  | _ :: _, [] => false
  | a :: as, b :: bs => a == b && startsWithSeq as bs

/-- First occurrence of `sep`: the text before it and the text after it. -/
def splitOnce (sep : List Char) : List Char → Option (List Char × List Char)
  | [] => none
  | c :: rest =>
    if startsWithSeq sep (c :: rest) then
      some ([], (c :: rest).drop sep.length)
    else
      match splitOnce sep rest with
      | some (pre, post) => some (c :: pre, post)
      | none => none

/-- Whether `sep` occurs anywhere in the list. -/
def containsSeq (sep : List Char) : List Char → Bool
  | [] => sep.isEmpty
  | c :: rest => startsWithSeq sep (c :: rest) || containsSeq sep rest

/-- Python `format, imgstr = data.split(sep)`: the two-element unpacking
succeeds only when `sep` occurs exactly once; otherwise the statement
raises `ValueError`. -/
def split2 (sep l : List Char) : Option (List Char × List Char) :=
  match splitOnce sep l with
  | some (pre, post) =>
    if containsSeq sep post then none else some (pre, post)
  | none => none

/-- `Base64ImageField.to_internal_value` (api/serializers.py 24-32) on a
string input: a string starting with `data:image` is split on `';base64,'`
and its payload base64-decoded into the uploaded file's bytes, the
extension coming from the mime part; a failed unpacking (`ValueError`) or a
failed decode (`binascii.Error`) propagates as an uncaught exception — the
method installs no handler and performs no padding fix-up. Any other input
falls through to the inherited `ImageField` handling. -/
def Base64ImageField.to_internal_value (data : List Char) : FieldOutcome :=
  if startsWithSeq "data:image".toList data then
    match split2 ";base64,".toList data with
    | some (format, imgstr) =>
      match b64decode imgstr with
      | some bytes => .file bytes ((format.splitOn '/').getLastD [])
      | none => .pyError
    | none => .pyError
  else .passthrough

example : b64encode [72, 105, 33] = "SGkh".toList := by decide

example : b64decode "SGkh".toList = some [72, 105, 33] := by decide

example : b64decode "QQ==".toList = some [65] := by decide

example : b64decode "QQ".toList = none := by decide

example :
    Base64ImageField.to_internal_value "data:image/png;base64,QQ==".toList =
      .file [65] "png".toList := by decide

example :
    Base64ImageField.to_internal_value "plain.png".toList =
      .passthrough := by decide

lemma b64val_b64chr : ∀ v : Nat, v < 64 → b64val (b64chr v) = some v := by
  decide

lemma b64chr_ne_pad : ∀ v : Nat, v < 64 → b64chr v ≠ '=' := by
  decide

lemma b64decodeQuads_encode : ∀ bs : List Nat, (∀ b ∈ bs, b < 256) →
    b64decodeQuads (b64encode bs) = some bs := by
  intro bs
  induction bs using b64encode.induct with
  | case1 =>
    intro h
    rfl
  | case2 b1 =>
    intro h
    have hb1 : b1 < 256 := h b1 (by simp)
    have h1 := b64val_b64chr (b1 / 4) (by omega)
    have h2 := b64val_b64chr (b1 % 4 * 16) (by omega)
    simp only [b64encode, b64decodeQuads, h1, h2, and_self, if_true,
      Option.some.injEq, List.cons.injEq, and_true]
    omega
  | case3 b1 b2 =>
    intro h
    have hb1 : b1 < 256 := h b1 (by simp)
    have hb2 : b2 < 256 := h b2 (by simp)
    have h1 := b64val_b64chr (b1 / 4) (by omega)
    have h2 := b64val_b64chr (b1 % 4 * 16 + b2 / 16) (by omega)
    have h3 := b64val_b64chr (b2 % 16 * 4) (by omega)
    have hne3 := b64chr_ne_pad (b2 % 16 * 4) (by omega)
    simp only [b64encode, b64decodeQuads, h1, h2, h3, if_neg hne3, and_self,
      if_true, Option.some.injEq, List.cons.injEq, and_true]
    omega
  | case4 b1 b2 b3 rest ih =>
    intro h
    have hb1 : b1 < 256 := h b1 (by simp)
    have hb2 : b2 < 256 := h b2 (by simp)
    have hb3 : b3 < 256 := h b3 (by simp)
    have hrest := ih (fun b hb => h b (by simp [hb]))
    have h1 := b64val_b64chr (b1 / 4) (by omega)
    have h2 := b64val_b64chr (b1 % 4 * 16 + b2 / 16) (by omega)
    have h3 := b64val_b64chr (b2 % 16 * 4 + b3 / 64) (by omega)
    have h4 := b64val_b64chr (b3 % 64) (by omega)
    have hne3 := b64chr_ne_pad (b2 % 16 * 4 + b3 / 64) (by omega)
    have hne4 := b64chr_ne_pad (b3 % 64) (by omega)
    simp only [b64encode, b64decodeQuads, h1, h2, h3, h4, if_neg hne3,
      if_neg hne4, hrest]
    simp only [Option.some.injEq, List.cons.injEq, and_true]
    refine ⟨by omega, by omega, by omega⟩

lemma b64encode_length_mod (bs : List Nat) :
    (b64encode bs).length % 4 = 0 := by
  induction bs using b64encode.induct with
  | case1 => rfl
  | case2 b1 => simp [b64encode]
  | case3 b1 b2 => simp [b64encode]
  | case4 b1 b2 b3 rest ih =>
    simp only [b64encode, List.length_cons]
    omega

lemma b64encode_chars : ∀ bs : List Nat, (∀ b ∈ bs, b < 256) →
    ∀ c ∈ b64encode bs, ((b64val c).isSome || c == '=') = true := by
  intro bs
  induction bs using b64encode.induct with
  | case1 =>
    intro h c hc
    simp [b64encode] at hc
  | case2 b1 =>
    intro h c hc
    have hb1 : b1 < 256 := h b1 (by simp)
    have hcases : c = b64chr (b1 / 4) ∨ c = b64chr (b1 % 4 * 16) ∨
        c = '=' := by
      simp only [b64encode, List.mem_cons, List.not_mem_nil, or_false] at hc
      tauto
    rcases hcases with rfl | rfl | rfl
    · rw [b64val_b64chr _ (by omega)]; rfl
    · rw [b64val_b64chr _ (by omega)]; rfl
    · decide
  | case3 b1 b2 =>
    intro h c hc
    have hb1 : b1 < 256 := h b1 (by simp)
    have hb2 : b2 < 256 := h b2 (by simp)
    have hcases : c = b64chr (b1 / 4) ∨ c = b64chr (b1 % 4 * 16 + b2 / 16) ∨
        c = b64chr (b2 % 16 * 4) ∨ c = '=' := by
      simp only [b64encode, List.mem_cons, List.not_mem_nil, or_false] at hc
      tauto
    rcases hcases with rfl | rfl | rfl | rfl
    · rw [b64val_b64chr _ (by omega)]; rfl
    · rw [b64val_b64chr _ (by omega)]; rfl
    · rw [b64val_b64chr _ (by omega)]; rfl
    · decide
  | case4 b1 b2 b3 rest ih =>
    intro h c hc
    have hb1 : b1 < 256 := h b1 (by simp)
    have hb2 : b2 < 256 := h b2 (by simp)
    have hb3 : b3 < 256 := h b3 (by simp)
    have hcases : c = b64chr (b1 / 4) ∨ c = b64chr (b1 % 4 * 16 + b2 / 16) ∨
        c = b64chr (b2 % 16 * 4 + b3 / 64) ∨ c = b64chr (b3 % 64) ∨
        c ∈ b64encode rest := by
      simp only [b64encode, List.mem_cons] at hc
      tauto
    rcases hcases with rfl | rfl | rfl | rfl | hmem
    · rw [b64val_b64chr _ (by omega)]; rfl
    · rw [b64val_b64chr _ (by omega)]; rfl
    · rw [b64val_b64chr _ (by omega)]; rfl
    · rw [b64val_b64chr _ (by omega)]; rfl
    · exact ih (fun b hb => h b (by simp [hb])) c hmem

/-- Round trip of the codec pair on any byte string. -/
lemma b64decode_encode (bs : List Nat) (h : ∀ b ∈ bs, b < 256) :
    b64decode (b64encode bs) = some bs := by
  have hf : (b64encode bs).filter (fun c => (b64val c).isSome || c == '=') =
      b64encode bs :=
    List.filter_eq_self.mpr (b64encode_chars bs h)
  have hm := b64encode_length_mod bs
  simp only [b64decode, hf]
  rw [if_pos (by simp [hm])]
  exact b64decodeQuads_encode bs h

lemma containsSeq_ne_head {c0 : Char} {sep : List Char} :
    ∀ l : List Char, (∀ c ∈ l, c ≠ c0) →
      containsSeq (c0 :: sep) l = false := by
  intro l
  induction l with
  | nil => intro h; rfl
  | cons c t ih =>
    intro h
    have hc0 : (c0 == c) = false :=
      beq_eq_false_iff_ne.mpr (Ne.symm (h c (List.mem_cons_self c t)))
    simp only [containsSeq, startsWithSeq, hc0, Bool.false_and,
      Bool.false_or]
    exact ih (fun x hx => h x (List.mem_cons_of_mem c hx))

lemma b64encode_no_semicolon (bs : List Nat) (h : ∀ b ∈ bs, b < 256) :
    ∀ c ∈ b64encode bs, c ≠ ';' := by
  intro c hc heq
  have hgood := b64encode_chars bs h c hc
  rw [heq] at hgood
  exact absurd hgood (by decide)

/-- C8 counterexample: the truncated payload `QQ` (length 2, not a multiple
of 4) is never padded — `base64.b64decode` rejects it with
`binascii.Error`, which `to_internal_value` does not catch, so the request
crashes instead of failing with an InvalidImageEncoding validation error;
the padded form `QQ==` would have decoded to the byte 65. -/
theorem C8_counterexample :
    Base64ImageField.to_internal_value "data:image/png;base64,QQ".toList =
      .pyError ∧
    b64decode "QQ".toList = none ∧
    b64decode "QQ==".toList = some [65] := by
  decide

/-- C8 amended: for every byte sequence, encoding as a base64 data URI and
decoding through the image field codec yields the original bytes; but the
codec performs no padding fix-up and installs no error handler, so a
malformed or truncated payload (such as `QQ`) raises an uncaught decoding
exception that aborts the request rather than an InvalidImageEncoding
validation failure. -/
theorem C8_codec_roundtrip_amended (bytes : List Nat)
    (h : ∀ b ∈ bytes, b < 256) :
    b64decode (b64encode bytes) = some bytes ∧
    Base64ImageField.to_internal_value
      ("data:image/png;base64,".toList ++ b64encode bytes) =
      .file bytes "png".toList ∧
    Base64ImageField.to_internal_value "data:image/png;base64,QQ".toList =
      .pyError := by
  refine ⟨b64decode_encode bytes h, ?_, by decide⟩
  have hpre : startsWithSeq "data:image".toList
      ("data:image/png;base64,".toList ++ b64encode bytes) = true := rfl
  have hsplit : splitOnce ";base64,".toList
      ("data:image/png;base64,".toList ++ b64encode bytes) =
      some ("data:image/png".toList, b64encode bytes) := rfl
  have hcontains : containsSeq ";base64,".toList (b64encode bytes) = false :=
    containsSeq_ne_head (b64encode bytes) (b64encode_no_semicolon bytes h)
  simp only [Base64ImageField.to_internal_value, hpre, if_true, split2,
    hsplit, hcontains, Bool.false_eq_true, if_false,
    b64decode_encode bytes h]
  rfl

/-- Witness for the C8 amended theorem on the byte string `Hi!`. -/
theorem C8_amended_witness :
    b64decode (b64encode [72, 105, 33]) = some [72, 105, 33] ∧
    Base64ImageField.to_internal_value
      ("data:image/png;base64,".toList ++ b64encode [72, 105, 33]) =
      .file [72, 105, 33] "png".toList :=
  ⟨(C8_codec_roundtrip_amended [72, 105, 33] (by decide)).1,
   (C8_codec_roundtrip_amended [72, 105, 33] (by decide)).2.1⟩

end Foodgram
